import Mathlib

/-!
Verification development for the rust-ed terminal text editor.

The Rust sources under src/ (vector.rs, renderer.rs, application.rs, main.rs)
are embedded shallowly:

* Rust `f64` values are modelled as exact rationals (ℚ).  The editor only
  manipulates small coordinates, offsets and a scale stepped in tenths, so the
  algebraic content of the floating-point code is captured exactly; the
  truncating and rounding casts of Rust (`as i32`, `f64::round`, `as u16`)
  are modelled explicitly below.
* Rust `i32` values are modelled as ℤ (no arithmetic here approaches 2^31).
* A call that can panic (`Result::unwrap` on the clipboard) is modelled by
  returning `Option`: `none` is a panic of the event loop.
* The text buffer (`Editor`, src/editor.rs) and the clipboard trait
  (src/clipboard.rs) are not recorded under src/; they are modelled from the
  specification, and each such definition is marked `Modelled from the spec`.
-/

unseal Rat.add Rat.mul Rat.sub Rat.inv

namespace RustEd

/-- Rust cast `f64 as i32`: truncation toward zero (saturation is irrelevant at
the small magnitudes used here).  For a rational with positive denominator this
is truncating division of the numerator by the denominator. -/
def f64toi32 (q : ℚ) : ℤ :=
  q.num.tdiv q.den

/-- Computable floor of a rational: flooring division of numerator by
denominator. -/
def ratFloor (q : ℚ) : ℤ :=
  q.num.fdiv q.den

/-- Rust `f64::round`: round to the nearest integer, halves away from zero. -/
def f64round (q : ℚ) : ℤ :=
  if 0 ≤ q then ratFloor (q + 1 / 2) else -(ratFloor (-q + 1 / 2))

/-- Rust cast `f64 as u16`: truncation toward zero, saturating into
`[0, 65535]`. -/
def u16ofF64 (q : ℚ) : ℤ :=
  min 65535 (max 0 (f64toi32 q))

/-- src/vector.rs: `Vector2<T>(pub T, pub T)`; the accessors `x()`/`y()`
become fields. -/
structure Vector2 (α : Type) where
  x : α
  y : α
deriving DecidableEq, Repr

/-- src/vector.rs `Vector2::add`: componentwise addition. -/
def Vector2.add (v a : Vector2 ℚ) : Vector2 ℚ :=
  ⟨v.x + a.x, v.y + a.y⟩

/-- Modelled from the spec: `Vector2::sub` (called by the zoom handlers in
src/application.rs but absent from the recorded vector.rs): componentwise
subtraction. -/
def Vector2.sub (v a : Vector2 ℚ) : Vector2 ℚ :=
  ⟨v.x - a.x, v.y - a.y⟩

/-- Modelled from the spec: `Vector2::scalar` (called by
`transform_view_coordinates` but absent from the recorded vector.rs):
componentwise multiplication by a scalar, the spec writes it `c1 * (s1/s2)`
together with `scalar_div`. -/
def Vector2.scalar (v : Vector2 ℚ) (s : ℚ) : Vector2 ℚ :=
  ⟨v.x * s, v.y * s⟩

/-- Modelled from the spec: `Vector2::scalar_div` (called by
`transform_view_coordinates` but absent from the recorded vector.rs):
componentwise division by a scalar. -/
def Vector2.scalar_div (v : Vector2 ℚ) (s : ℚ) : Vector2 ℚ :=
  ⟨v.x / s, v.y / s⟩

/-- src/vector.rs `Ord for Vector2` (reading order): `a < b` iff
`a.y < b.y` or (`a.y = b.y` and `a.x < b.x`). -/
def Vector2.lt (a b : Vector2 ℤ) : Bool :=
  decide (a.y < b.y) || (decide (a.y = b.y) && decide (a.x < b.x))

/-- Rust `Vector2::<i32>::from(v: Vector2<f64>)` through the `as` primitive
cast: truncation toward zero on each component. -/
def Vector2.toInt (v : Vector2 ℚ) : Vector2 ℤ :=
  ⟨f64toi32 v.x, f64toi32 v.y⟩

/-- Rust `Vector2::<f64>::from(v: Vector2<i32>)`: exact embedding. -/
def Vector2.toRat (v : Vector2 ℤ) : Vector2 ℚ :=
  ⟨(v.x : ℚ), (v.y : ℚ)⟩

/-- src/renderer.rs `Rect<T>` instantiated at the only type the application
uses, `T = f64` (modelled as ℚ); `width` and `height` are `i32`. -/
structure Rect where
  location : Vector2 ℚ
  width : ℤ
  height : ℤ
deriving DecidableEq, Repr

/-- src/renderer.rs `Rect::x`. -/
def Rect.x (r : Rect) : ℚ := r.location.x

/-- src/renderer.rs `Rect::y`. -/
def Rect.y (r : Rect) : ℚ := r.location.y

/-- src/renderer.rs lines 57-64, `Rect::contains`: half-open box containment
`location.x ≤ p.x < location.x + width` and likewise for y. -/
def Rect.contains (r : Rect) (p : Vector2 ℚ) : Bool :=
  (decide (p.x ≥ r.location.x) && decide (p.x < r.location.x + (r.width : ℚ))) &&
    (decide (p.y ≥ r.location.y) && decide (p.y < r.location.y + (r.height : ℚ)))

/-- src/renderer.rs `Rect::center`: `(width/2, height/2)` computed in `T = f64`
(exact division, not integer division). -/
def Rect.center (r : Rect) : Vector2 ℚ :=
  ⟨(r.width : ℚ) / 2, (r.height : ℚ) / 2⟩

/-- src/renderer.rs `Rect::center_point`: `location + center`. -/
def Rect.center_point (r : Rect) : Vector2 ℚ :=
  r.location.add r.center

/-- src/renderer.rs `RenderOpts`. -/
structure RenderOpts where
  view : Rect
  scale : ℚ
deriving DecidableEq, Repr

/-- src/renderer.rs `RenderOpts::default`: zero-sized view at the origin,
scale 1. -/
def RenderOpts.default : RenderOpts :=
  ⟨⟨⟨0, 0⟩, 0, 0⟩, 1⟩

/-- Modelled from the spec: one stored character (`Cell` lives in the
unrecorded src/editor.rs; the renderer and dispatcher read its `char` field). -/
structure Cell where
  char : Char
deriving DecidableEq, Repr

/-- Modelled from the spec: the text buffer `Editor` of the unrecorded
src/editor.rs.  The document is a list of rows (row count stays ≥ 1), the
cursor is kept clamped (`cy < rows.length`, `cx ≤ length of row cy`), and the
optional selection is an anchor position plus the `selecting` flag. -/
structure Editor where
  rows : List (List Char)
  cx : ℕ
  cy : ℕ
  selecting : Bool
  anchorX : ℕ
  anchorY : ℕ
deriving DecidableEq, Repr

/-- Modelled from the spec: an empty document is one empty row. -/
def Editor.new : Editor :=
  ⟨[[]], 0, 0, false, 0, 0⟩

/-- Modelled from the spec: split flat text on the row separator.  Exact
inverse of `joinRows`. -/
def splitRows : List Char → List (List Char)
  | [] => [[]]
  | c :: rest =>
    if c = '\n' then [] :: splitRows rest
    else
      match splitRows rest with
      | [] => [[c]]
      | r :: rs => (c :: r) :: rs

/-- Modelled from the spec: join rows with the row separator (no trailing
separator). -/
def joinRows : List (List Char) → List Char
  | [] => []
  | r :: rs =>
    match rs with
    | [] => r
    | _ :: _ => r ++ '\n' :: joinRows rs

/-- Modelled from the spec: the document as one flat character sequence, row
separators included. -/
def Editor.flatten (e : Editor) : List Char :=
  joinRows e.rows

/-- Modelled from the spec: serialize the document back to flat text. -/
def Editor.toString (e : Editor) : String :=
  String.mk (joinRows e.rows)

/-- Modelled from the spec: construct a buffer from flat text (`Editor::from`). -/
def Editor.fromString (s : String) : Editor :=
  { Editor.new with rows := splitRows s.data }

/-- Modelled from the spec: `cursor_pos()` as an integer pair. -/
def Editor.cursor_pos (e : Editor) : Vector2 ℤ :=
  ⟨(e.cx : ℤ), (e.cy : ℤ)⟩

/-- Modelled from the spec: `get_cell(x, y)` returns the character at that
coordinate, or absent when the row index or the column index is out of range. -/
def Editor.get_cell (e : Editor) (x y : ℤ) : Option Cell :=
  if 0 ≤ y ∧ y < (e.rows.length : ℤ) ∧ 0 ≤ x ∧
      x < (((e.rows.getD y.toNat []).length : ℕ) : ℤ) then
    some ⟨(e.rows.getD y.toNat []).getD x.toNat ' '⟩
  else none

/-- Modelled from the spec: `set_cursor(pos)` sets then clamps, row into
`[0, rowCount)` first, then column into `[0, row length]`. -/
def Editor.set_cursor (e : Editor) (x y : ℤ) : Editor :=
  let cy2 := (min (max y 0) ((e.rows.length : ℤ) - 1)).toNat
  let cx2 := (min (max x 0) (((e.rows.getD cy2 []).length : ℕ) : ℤ)).toNat
  { e with cx := cx2, cy := cy2 }

/-- Modelled from the spec: `move_cursor(dx, dy)` shifts then clamps. -/
def Editor.move_cursor (e : Editor) (dx dy : ℤ) : Editor :=
  e.set_cursor ((e.cx : ℤ) + dx) ((e.cy : ℤ) + dy)

/-- Modelled from the spec: `write(ch)`.  The row separator splits the current
row at the cursor and moves the cursor to column 0 of the new row; any other
character is inserted in place and the cursor advances one column. -/
def Editor.write (e : Editor) (c : Char) : Editor :=
  let row := e.rows.getD e.cy []
  if c = '\n' then
    { e with
        rows := e.rows.take e.cy ++ row.take e.cx :: row.drop e.cx :: e.rows.drop (e.cy + 1),
        cx := 0, cy := e.cy + 1 }
  else
    { e with rows := e.rows.set e.cy (row.take e.cx ++ c :: row.drop e.cx), cx := e.cx + 1 }

/-- Modelled from the spec: `delete()` (backspace).  Returns the removed cell;
at the document start it returns none; removing a row separator merges the
current row into the previous one and leaves the cursor at the join point.
The out-of-range guards are unreachable while the cursor invariant holds. -/
def Editor.delete (e : Editor) : Editor × Option Cell :=
  match e.rows.get? e.cy with
  | none => (e, none)
  | some row =>
    if e.cx = 0 then
      match e.cy with
      | 0 => (e, none)
      | Nat.succ cyp =>
        match e.rows.get? cyp with
        | none => (e, none)
        | some prev =>
          ({ e with
              rows := e.rows.take cyp ++ (prev ++ row) :: e.rows.drop (e.cy + 1),
              cx := prev.length, cy := cyp }, some ⟨'\n'⟩)
    else
      if e.cx ≤ row.length then
        ({ e with
            rows := e.rows.set e.cy (row.take (e.cx - 1) ++ row.drop e.cx),
            cx := e.cx - 1 }, some ⟨row.getD (e.cx - 1) ' '⟩)
      else (e, none)

/-- Modelled from the spec: index of a position in the flattened document (each
earlier row contributes its length plus one separator). -/
def posToIndex (rows : List (List Char)) (x y : ℕ) : ℕ :=
  ((rows.take y).map (fun r => r.length + 1)).sum + x

/-- Modelled from the spec: inverse walk of `posToIndex`, clamping into the
last row. -/
def indexToPosAux : List (List Char) → ℕ → ℕ → ℕ × ℕ
  | [], i, y => (i, y)
  | [r], i, y => (min i r.length, y)
  | r :: rs, i, y =>
    if i ≤ r.length then (i, y) else indexToPosAux rs (i - (r.length + 1)) (y + 1)

/-- Modelled from the spec: position of a flat index. -/
def indexToPos (rows : List (List Char)) (i : ℕ) : ℕ × ℕ :=
  indexToPosAux rows i 0

/-- Modelled from the spec: flat index of the cursor, also the number of
backspaces that separate the cursor from the document start. -/
def Editor.curIndex (e : Editor) : ℕ :=
  posToIndex e.rows e.cx e.cy

/-- Modelled from the spec: whitespace for word navigation; the row separator
counts as whitespace. -/
def isWordWs (c : Char) : Bool :=
  c = ' ' || c = '\t' || c = '\n' || c = '\r'

/-- Length of the longest run of characters satisfying `p` at the front of the
list. -/
def runLen (p : Char → Bool) : List Char → ℕ
  | [] => 0
  | c :: cs => if p c then runLen p cs + 1 else 0

/-- Modelled from the spec: the cursor jump markers (`Position` in the
unrecorded src/editor.rs).  LineBeginning/LineEnd set the column to 0 / the row
length; NextWord skips the rest of the current word and the following
whitespace, clamping to the end of the document; PreviousWord mirrors it. -/
inductive Position where
  | LineBeginning
  | LineEnd
  | NextWord
  | PreviousWord
deriving DecidableEq, Repr

/-- Modelled from the spec: `move_cursor_to(marker)`. -/
def Editor.move_cursor_to (e : Editor) (p : Position) : Editor :=
  match p with
  | .LineBeginning => { e with cx := 0 }
  | .LineEnd => { e with cx := (e.rows.getD e.cy []).length }
  | .NextWord =>
    let doc := e.flatten
    let i := e.curIndex
    let j := i + runLen (fun c => !isWordWs c) (doc.drop i)
    let k := j + runLen isWordWs (doc.drop j)
    let xy := indexToPos e.rows (min k doc.length)
    { e with cx := xy.1, cy := xy.2 }
  | .PreviousWord =>
    let doc := e.flatten
    let i := e.curIndex
    let docr := (doc.take i).reverse
    let j := runLen isWordWs docr
    let k := runLen (fun c => !isWordWs c) (docr.drop j)
    let xy := indexToPos e.rows (i - j - k)
    { e with cx := xy.1, cy := xy.2 }

/-- Modelled from the spec: `line_len()`. -/
def Editor.line_len (e : Editor) : ℕ :=
  (e.rows.getD e.cy []).length

/-- Does `pat` occur at the front of `doc`? -/
def matchesAt : List Char → List Char → Bool
  | [], _ => true
  | _ :: _, [] => false
  | p :: ps, d :: ds => p == d && matchesAt ps ds

/-- Modelled from the spec: `search(text, start, reverse)` finds the nearest
occurrence strictly past (forward) or strictly before (backward) the start
position in the flattened document, without wrapping around the document
boundary; none when no match exists (or the needle is empty). -/
def Editor.search (e : Editor) (text : List Char) (start : Vector2 ℤ) (reverse : Bool) :
    Option (Vector2 ℤ) :=
  if text.isEmpty then none
  else
    let doc := e.flatten
    let si := posToIndex e.rows start.x.toNat start.y.toNat
    let hits := (List.range (doc.length + 1)).filter (fun i => matchesAt text (doc.drop i))
    let cand :=
      if reverse then (hits.filter (fun i => i < si)).getLast?
      else (hits.filter (fun i => si < i)).head?
    cand.map (fun i =>
      let xy := indexToPos e.rows i
      ⟨(xy.1 : ℤ), (xy.2 : ℤ)⟩)

/-- Modelled from the spec: `begin_select()` anchors the selection at the
cursor and turns selecting on. -/
def Editor.begin_select (e : Editor) : Editor :=
  { e with selecting := true, anchorX := e.cx, anchorY := e.cy }

/-- Modelled from the spec: `clear_selection()`. -/
def Editor.clear_selection (e : Editor) : Editor :=
  { e with selecting := false }

/-- Modelled from the spec: `copy()` returns the cells of the selection range
(end-exclusive, in reading order, row separators included) when selecting,
otherwise none.  Never mutates. -/
def Editor.copy (e : Editor) : Option (List Cell) :=
  if e.selecting then
    let ia := posToIndex e.rows e.anchorX e.anchorY
    let ic := e.curIndex
    some ((((e.flatten).drop (min ia ic)).take (max ia ic - min ia ic)).map (fun c => ⟨c⟩))
  else none

/-- One backspace step of the delete-line loop, with explicit fuel.  Each
successful `delete` moves the cursor exactly one flat index backward, so fuel
`curIndex` (the distance to the document start, where `delete` returns none)
never runs out; the fuel only discharges termination. -/
def Editor.deleteLoopFuel : ℕ → Editor → Editor
  | 0, e => e
  | n + 1, e =>
    match e.delete with
    | (e2, none) => e2
    | (e2, some c) => if c.char = '\n' then e2 else Editor.deleteLoopFuel n e2

/-- The `while let Some(c) = self.editor.delete()` loop of
`Application::delete_line` (src/application.rs lines 425-429): delete
backward until a row separator is consumed or the document start is reached. -/
def Editor.deleteLoop (e : Editor) : Editor :=
  Editor.deleteLoopFuel e.curIndex e

/-- src/renderer.rs `StringRenderer`. -/
structure StringRenderer where
  line_hint : Option ℤ
  break_on_line_end : Bool
deriving DecidableEq, Repr

/-- src/renderer.rs `StringRenderer::new`. -/
def StringRenderer.new : StringRenderer :=
  ⟨none, false⟩

/-- src/renderer.rs `StringRenderer::with_line_hint`. -/
def StringRenderer.with_line_hint (line : ℤ) : StringRenderer :=
  ⟨some line, false⟩

/-- src/renderer.rs lines 132-144, the inner column loop of
`StringRenderer::render`.  `x` is the raw loop variable running from `x2`;
the buffer coordinates are the truncating casts `(x as f64 * scale) as i32`
and `(y as f64 * scale) as i32`; the shadowed scaled `x` (here `bx`) is also
what the `break_on_line_end && x > 0` test reads.  The ℕ argument counts the
remaining columns. -/
def renderRowFrom (sr : StringRenderer) (e : Editor) (opts : RenderOpts) (y : ℤ) :
    ℤ → ℕ → List Char
  | _, 0 => []
  | x, n + 1 =>
    let bx := f64toi32 ((x : ℚ) * opts.scale)
    let byy := f64toi32 ((y : ℚ) * opts.scale)
    match e.get_cell bx byy with
    | some cell => cell.char :: renderRowFrom sr e opts y (x + 1) n
    | none =>
      if sr.break_on_line_end && decide (0 < bx) then []
      else ' ' :: renderRowFrom sr e opts y (x + 1) n

/-- src/renderer.rs lines 111-146, `StringRenderer::render` as the list of
rendered screen rows: with a line hint the height is 1 and `y2` is the hinted
buffer row, otherwise the height is the view height and `y2` is the rounded
view origin; `x2` is the rounded horizontal view origin.  An empty or negative
width or height yields no columns or rows, as the Rust integer ranges do. -/
def renderLines (sr : StringRenderer) (e : Editor) (opts : RenderOpts) :
    List (List Char) :=
  let height : ℤ := match sr.line_hint with | some _ => 1 | none => opts.view.height
  let y2 : ℤ := match sr.line_hint with | some l => l | none => f64round opts.view.location.y
  let x2 : ℤ := f64round opts.view.location.x
  (List.range height.toNat).map
    (fun (r : ℕ) => renderRowFrom sr e opts (y2 + (r : ℤ)) x2 opts.view.width.toNat)

/-- The `screen.push('\n')` after every row: each rendered row is terminated
by a newline. -/
def terminateRows : List (List Char) → List Char
  | [] => []
  | r :: rs => r ++ '\n' :: terminateRows rs

/-- src/renderer.rs `StringRenderer::render`, final string. -/
def StringRenderer.render (sr : StringRenderer) (e : Editor) (opts : RenderOpts) : String :=
  String.mk (terminateRows (renderLines sr e opts))

/-- src/application.rs lines 783-787, `transform_view_coordinates`: map a
coordinate through the scale ratio (`p * scale / scale2`). -/
def transform_view_coordinates (p : Vector2 ℚ) (scale scale2 : ℚ) : Vector2 ℚ :=
  (p.scalar scale).scalar_div scale2

/-- The re-anchoring snippet shared by the three zoom handlers
(src/application.rs lines 537-542, 553-557, 565-570): the new origin is the
transformed center point minus the view-center offset. -/
def reanchorView (v : Rect) (s1 s2 : ℚ) : Rect :=
  { v with location := (transform_view_coordinates v.center_point s1 s2).sub v.center }

/-- crossterm `KeyEvent` restricted to the variants the dispatcher matches;
`Other` stands for every unmodelled variant (all of which fall through to the
per-mode default arms and do nothing). -/
inductive KeyEvent where
  | Char (c : Char)
  | Ctrl (c : Char)
  | F (n : ℕ)
  | Up
  | Down
  | Left
  | Right
  | CtrlUp
  | CtrlDown
  | CtrlLeft
  | CtrlRight
  | Home
  | End
  | Backspace
  | Enter
  | Esc
  | Other
deriving DecidableEq, Repr

/-- src/application.rs lines 18-24, `Action`. -/
inductive Action where
  | SaveFileAs
  | Search (reverse : Bool)
deriving DecidableEq, Repr

/-- src/application.rs lines 26-34, `EditMode`; `Prompt` owns the mode to
return to and an optional action. -/
inductive EditMode where
  | Command
  | Insert
  | Prompt (ret : EditMode) (action : Option Action)
deriving DecidableEq, Repr

/-- Is the mode a prompt? -/
def EditMode.isPromptMode : EditMode → Bool
  | .Prompt _ _ => true
  | _ => false

/-- Is the mode a prompt whose stored return mode is itself a prompt? -/
def EditMode.isNestedPrompt : EditMode → Bool
  | .Prompt (.Prompt _ _) _ => true
  | _ => false

/-- Modelled from the spec: the observable behaviour of one clipboard call of
the `Clipboard` capability (unrecorded src/clipboard.rs): success with a value,
or failure with a human-readable error message. -/
inductive CbResult (α : Type) where
  | ok (val : α)
  | err (msg : String)
deriving DecidableEq, Repr

/-- src/application.rs lines 52-85, `Application<T>`.  The clipboard capability
is replaced by the observable results of its two methods (`pasteResult`,
`copyResult`); `termCols`/`termRows` model the surrounding terminal size that
`update_view_size` reads on every render. -/
structure App where
  filepath : String
  editor : Editor
  pasteResult : CbResult String
  copyResult : CbResult Unit
  render_opts : RenderOpts
  exit : Bool
  log : String
  edit_mode : EditMode
  last_search : String
  prompt_buffer : Editor
  render_line_hint : Option ℤ
  render_break_line_hint : Bool
  cursor_hidden : Bool
  termCols : ℤ
  termRows : ℤ
deriving DecidableEq, Repr

/-- src/application.rs lines 91-110, `Application::new`. -/
def App.new (editor : Editor) (pasteResult : CbResult String) (copyResult : CbResult Unit)
    (filepath : String) (termCols termRows : ℤ) : App :=
  { filepath := filepath
    editor := editor
    pasteResult := pasteResult
    copyResult := copyResult
    render_opts := RenderOpts.default
    exit := false
    log := ""
    edit_mode := .Command
    last_search := ""
    prompt_buffer := Editor.new
    render_line_hint := none
    render_break_line_hint := false
    cursor_hidden := false
    termCols := termCols
    termRows := termRows }

/-- src/application.rs lines 775-780, `update_view_size`: the view width is
the terminal column count and the view height is the terminal row count minus
one (the status line). -/
def App.updateViewSize (a : App) : App :=
  { a with
      render_opts.view.width := a.termCols,
      render_opts.view.height := a.termRows - 1 }

/-- src/application.rs lines 713-742, `update_cursor_pos`, state effect: the
caret is shown (cursor_hidden false) exactly when the cursor position is inside
the view rectangle. -/
def App.updateCursorPos (a : App) : App :=
  { a with cursor_hidden := !(a.render_opts.view.contains a.editor.cursor_pos.toRat) }

/-- src/application.rs lines 713-742, `update_cursor_pos`, terminal effect:
the caret position (screen-relative, cursor minus the rounded view origin)
when shown, none when hidden. -/
def App.caretState (a : App) : Option (Vector2 ℤ) :=
  if a.render_opts.view.contains a.editor.cursor_pos.toRat then
    some ⟨a.editor.cursor_pos.x - f64round a.render_opts.view.location.x,
          a.editor.cursor_pos.y - f64round a.render_opts.view.location.y⟩
  else none

/-- src/application.rs lines 708-711, `clear_render_hints`. -/
def App.clearRenderHints (a : App) : App :=
  { a with render_break_line_hint := false, render_line_hint := none }

/-- The state effect of the full-frame branch of `render` (src/application.rs
lines 698-705): drawing and the status bar leave the state alone except for
`update_cursor_pos`. -/
def App.renderFull (a : App) : App :=
  a.updateCursorPos

/-- src/application.rs lines 745-772, `render_line`, state effect.  The hinted
row is drawn only when the point `(0, line)` is inside the view rectangle (both
axes); otherwise the hints are cleared and, when `(0, line)` is before the
truncated view origin in reading order, a full render is triggered. -/
def App.renderLineState (a : App) (line : ℤ) : App :=
  if a.render_opts.view.contains ⟨0, (line : ℚ)⟩ then
    (a.updateCursorPos).clearRenderHints
  else
    let a2 := a.clearRenderHints
    if Vector2.lt ⟨0, line⟩ a2.render_opts.view.location.toInt then
      (a2.updateViewSize).renderFull
    else a2

/-- src/application.rs lines 689-706, `render`, state effect: refresh the view
size, then either the line-hinted path or the full-frame path. -/
def App.render (a : App) : App :=
  let a2 := a.updateViewSize
  match a2.render_line_hint with
  | some line => a2.renderLineState line
  | none => a2.renderFull

/-- src/application.rs lines 249-260, `Application::set_cursor`. -/
def App.setCursor (a : App) (x y : ℤ) : App :=
  let a2 := { a with editor := a.editor.set_cursor x y }
  let a3 := a2.updateCursorPos
  if a3.editor.selecting then
    let a4 := ({ a3 with render_line_hint := some a3.editor.cursor_pos.y }).render
    ({ a4 with render_line_hint := some (a4.editor.cursor_pos.y - y) }).render
  else a3

/-- src/application.rs lines 262-273, `Application::move_cursor`. -/
def App.moveCursor (a : App) (x y : ℤ) : App :=
  let a2 := { a with editor := a.editor.move_cursor x y }
  let a3 := a2.updateCursorPos
  if a3.editor.selecting then
    let a4 := ({ a3 with render_line_hint := some a3.editor.cursor_pos.y }).render
    ({ a4 with render_line_hint := some (a4.editor.cursor_pos.y - y) }).render
  else a3

/-- src/application.rs lines 275-282, `Application::move_view`. -/
def App.moveView (a : App) (x y : ℤ) : App :=
  ({ a with render_opts.view.location := a.render_opts.view.location.add ⟨(x : ℚ), (y : ℚ)⟩ }).render

/-- src/application.rs lines 284-287, `Application::center_renderer`: only the
vertical origin moves, to the target row minus half the (integer-divided) view
height. -/
def App.centerRenderer (a : App) (loc : Vector2 ℤ) : App :=
  { a with
      render_opts.view.location.y :=
        ((loc.y - Int.tdiv a.render_opts.view.height 2 : ℤ) : ℚ) }

/-- src/application.rs lines 677-685, `go_to_line_home` / `go_to_line_end`. -/
def App.goToLineHome (a : App) : App :=
  { a with editor := a.editor.move_cursor_to .LineBeginning }

/-- src/application.rs line 683-685. -/
def App.goToLineEnd (a : App) : App :=
  { a with editor := a.editor.move_cursor_to .LineEnd }

/-- src/application.rs lines 420-439, `Application::delete_line`. -/
def App.deleteLine (a : App) : App :=
  let pos := a.editor.cursor_pos
  let a2 := a.goToLineEnd
  let a3 := { a2 with editor := a2.editor.deleteLoop }
  let a4 := a3.goToLineHome
  let a5 := { a4 with editor := a4.editor.move_cursor 0 1 }
  if pos.y = 0 then { a5 with editor := (a5.editor.delete).1 } else a5

/-- src/application.rs lines 592-605, `Application::search_next`. -/
def App.searchNext (a : App) (text : String) (reverse : Bool) : App :=
  let a2 := { a with last_search := text }
  let start := a2.editor.cursor_pos
  match a2.editor.search text.data start reverse with
  | some x =>
    let a3 := a2.setCursor x.x x.y
    if a3.render_opts.view.contains x.toRat then a3
    else (a3.centerRenderer x).render
  | none => a2

/-- src/application.rs lines 608-615, `Application::next_word`. -/
def App.nextWord (a : App) (forward : Bool) : App :=
  let a2 :=
    { a with editor := a.editor.move_cursor_to (if forward then .NextWord else .PreviousWord) }
  a2.updateCursorPos

/-- src/application.rs lines 144-222, `process_prompt_mode`.  The `update!`
macro only moves the caret (`update_cursor_pos`); the `reset!` macro clears the
prompt buffer and restores the stored return mode.  Saving to a file is an
external write with no state effect beyond the log and the remembered path. -/
def App.processPromptMode (a : App) (event : KeyEvent) (action : Option Action)
    (edit_mode : EditMode) : App :=
  match event with
  | .Char x => ({ a with prompt_buffer := a.prompt_buffer.write x }).updateCursorPos
  | .Backspace => ({ a with prompt_buffer := (a.prompt_buffer.delete).1 }).updateCursorPos
  | .Esc =>
    ({ a with prompt_buffer := Editor.new, edit_mode := edit_mode }).updateCursorPos
  | .Left => ({ a with prompt_buffer := a.prompt_buffer.move_cursor (-1) 0 }).updateCursorPos
  | .Right => ({ a with prompt_buffer := a.prompt_buffer.move_cursor 1 0 }).updateCursorPos
  | .Up =>
    match action with
    | some (.Search _) =>
      let a2 := { a with prompt_buffer := Editor.fromString a.last_search }
      let a3 := { a2 with prompt_buffer := a2.prompt_buffer.move_cursor_to .LineEnd }
      a3.render
    | _ => a
  | .Enter =>
    let a2 :=
      match action with
      | some .SaveFileAs =>
        let text := a.prompt_buffer.toString
        { a with filepath := text, log := "saved to file: " ++ text }
      | some (.Search reverse) => a.searchNext a.prompt_buffer.toString reverse
      | none => a
    ({ a2 with prompt_buffer := Editor.new, edit_mode := edit_mode }).updateCursorPos
  | _ => a

/-- src/application.rs lines 377-418, `process_insert_mode`. -/
def App.processInsertMode (a : App) (event : KeyEvent) : App :=
  match event with
  | .Down => a.moveCursor 0 1
  | .Up => a.moveCursor 0 (-1)
  | .Right => a.moveCursor 1 0
  | .Left => a.moveCursor (-1) 0
  | .Char x =>
    let a2 := { a with log := "[" ++ String.mk [x] ++ "]", editor := a.editor.write x }
    let a3 :=
      { a2 with
          render_break_line_hint := true,
          render_line_hint := some a2.editor.cursor_pos.y }
    a3.render
  | .Esc => ({ a with edit_mode := .Command }).render
  | .Backspace =>
    let d := a.editor.delete
    let a2 := { a with editor := d.1 }
    let a3 :=
      match d.2 with
      | some x =>
        if x.char ≠ '\n' then { a2 with render_line_hint := some a2.editor.cursor_pos.y }
        else a2
      | none => a2
    a3.render
  | .Enter => ({ a with editor := a.editor.write '\n' }).render
  | _ => a

/-- src/application.rs lines 442-589, `process_command_mode`.  The character
bindings are dispatched as the Rust `match` does, first literal arm wins. -/
def App.processCommandMode (a : App) (event : KeyEvent) : App :=
  match event with
  | .Char ch =>
    if ch = 'i' then ({ a with edit_mode := .Insert }).render
    else if ch = 'o' then
      let a2 := a.goToLineEnd
      let a3 := { a2 with editor := a2.editor.write '\n' }
      ({ a3 with edit_mode := .Insert }).render
    else if ch = 'O' then
      let a2 := a.moveCursor 0 (-1)
      let a3 := a2.goToLineEnd
      let a4 := { a3 with editor := a3.editor.write '\n' }
      ({ a4 with edit_mode := .Insert }).render
    else if ch = 'J' then a.moveView 0 5
    else if ch = 'K' then a.moveView 0 (-5)
    else if ch = 'H' then a.moveView (-5) 0
    else if ch = 'L' then a.moveView 5 0
    else if ch = 'v' then { a with editor := a.editor.begin_select }
    else if ch = 'd' then ({ a with editor := (a.editor.delete).1 }).render
    else if ch = 'c' then
      let a2 :=
        match a.editor.copy with
        | some cells =>
          let _text := String.mk (cells.map (fun (c : Cell) => c.char))
          match a.copyResult with
          | .ok _ => { a with log := "copied to clipboard" }
          | .err e => { a with log := "error copying: " ++ e }
        | none => a
      a2.render
    else if ch = '/' then
      let a2 :=
        { a with
            log := "search: ",
            edit_mode := .Prompt a.edit_mode (some (.Search false)) }
      a2.render
    else if ch = '?' then
      let a2 :=
        { a with
            log := "search: ",
            edit_mode := .Prompt a.edit_mode (some (.Search true)) }
      a2.render
    else if ch = 'n' then
      let a2 := { a with log := "repeating last search" }
      let a3 := a2.searchNext a2.last_search false
      a3.render
    else if ch = 'N' then
      let a2 := { a with log := "repeating last search" }
      let a3 := a2.searchNext a2.last_search true
      a3.render
    else if ch = 'j' then a.moveCursor 0 1
    else if ch = 'k' then a.moveCursor 0 (-1)
    else if ch = 'h' then a.moveCursor (-1) 0
    else if ch = 'l' then a.moveCursor 1 0
    else if ch = 'w' then a.nextWord true
    else if ch = 'b' then a.nextWord false
    else if ch = '$' then (a.goToLineEnd).updateCursorPos
    else if ch = '0' then (a.goToLineHome).updateCursorPos
    else if ch = '_' then
      let original_scale := a.render_opts.scale
      let a2 := { a with render_opts.scale := a.render_opts.scale + 1 / 10 }
      let a3 :=
        { a2 with
            render_opts.view := reanchorView a2.render_opts.view original_scale a2.render_opts.scale }
      a3.render
    else if ch = '+' then
      let original_scale := a.render_opts.scale
      let a2 := { a with render_opts.scale := a.render_opts.scale - 1 / 10 }
      let a3 :=
        if a2.render_opts.scale ≤ (0 : ℚ) then { a2 with render_opts.scale := (0 : ℚ) }
        else
          { a2 with
              render_opts.view :=
                reanchorView a2.render_opts.view original_scale a2.render_opts.scale }
      a3.render
    else if ch = '=' then
      let original_scale := a.render_opts.scale
      let a2 := { a with render_opts.scale := 1 }
      let a3 :=
        { a2 with
            render_opts.view :=
              reanchorView a2.render_opts.view original_scale a2.render_opts.scale }
      ({ a3 with log := "reset render scale to 1" }).render
    else a
  | .Esc => ({ a with editor := a.editor.clear_selection }).render
  | .Down => a.moveCursor 0 1
  | .Up => a.moveCursor 0 (-1)
  | .Right => a.moveCursor 1 0
  | .Left => a.moveCursor (-1) 0
  | _ => a

/-- The per-mode dispatch at the bottom of `process_key_event`
(src/application.rs lines 366-372). -/
def App.dispatchMode (a : App) (event : KeyEvent) : App :=
  match a.edit_mode with
  | .Insert => a.processInsertMode event
  | .Command => a.processCommandMode event
  | .Prompt mode action => a.processPromptMode event action mode

/-- src/application.rs lines 289-374, `process_key_event`.  The global
bindings run first in every mode; everything else falls through to the
per-mode handler.  Result `none` models a panic of the event loop: the only
panic site is the Ctrl+V handler, which calls `self.clipboard.paste().unwrap()`
(line 331) and therefore dies when the paste capability fails.  A successful
paste strips carriage returns and writes every remaining character. -/
def App.processKeyEvent (a : App) (event : KeyEvent) : Option App :=
  match event with
  | .CtrlDown => some (a.moveView 0 1)
  | .CtrlUp => some (a.moveView 0 (-1))
  | .CtrlRight => some (a.moveView 1 0)
  | .CtrlLeft => some (a.moveView (-1) 0)
  | .F n =>
    if n = 1 then some a
    else if n = 5 then some a.render
    else some (a.dispatchMode (.F n))
  | .Ctrl c =>
    if c = 'c' then some { a with exit := true }
    else if c = 'd' then some ((a.deleteLine).render)
    else if c = 'a' then
      some (a.setCursor 0
        (f64toi32 a.render_opts.view.location.y + Int.tdiv a.render_opts.view.height 2))
    else if c = 'v' then
      match a.pasteResult with
      | .err _ => none
      | .ok s =>
        let text := s.data.filter (fun ch => ch ≠ '\r')
        let a2 := { a with editor := text.foldl (fun ed ch => ed.write ch) a.editor }
        some a2.render
    else if c = 'l' then
      let a2 := a.centerRenderer a.editor.cursor_pos
      some a2.render
    else if c = 's' then
      let a2 := { a with log := "saved to " ++ a.filepath }
      some a2.render
    else if c = 'x' then
      let a2 :=
        { a with
            edit_mode := .Prompt a.edit_mode (some .SaveFileAs),
            log := "save as: " }
      let a3 := { a2 with prompt_buffer := Editor.fromString a2.filepath }
      let a4 := { a3 with prompt_buffer := a3.prompt_buffer.move_cursor_to .LineEnd }
      some a4.render
    else some (a.dispatchMode (.Ctrl c))
  | .Home => some ((a.goToLineHome).updateCursorPos)
  | .End => some ((a.goToLineEnd).updateCursorPos)
  | ev => some (a.dispatchMode ev)

/-- Fold a sequence of key events through the dispatcher; a panic (`none`)
aborts the whole run. -/
def App.applyEvents : App → List KeyEvent → Option App
  | a, [] => some a
  | a, ev :: evs =>
    match a.processKeyEvent ev with
    | none => none
    | some a2 => App.applyEvents a2 evs

/-- One terminal write of the text area: either a single screen row placed at
a screen line, or a full frame placed at the origin.  (The status bar is drawn
separately on both paths and is not part of the text area.) -/
inductive RenderOut where
  | lineOut (screenY : ℤ) (text : String)
  | fullOut (text : String)
deriving DecidableEq, Repr

/-- src/application.rs lines 745-772, `render_line`, terminal output of the
text area.  When the point `(0, line)` is inside the view rectangle the hinted
row is rendered (height-1 render) at screen line `(line - round(location.y))
as u16`; otherwise nothing is drawn unless `(0, line)` is before the truncated
view origin in reading order, in which case `render` runs a full frame against
the refreshed view size. -/
def App.renderLineOut (a : App) (line : ℤ) : List RenderOut :=
  if a.render_opts.view.contains ⟨0, (line : ℚ)⟩ then
    [RenderOut.lineOut
      (u16ofF64 ((line : ℚ) - ((f64round a.render_opts.view.location.y : ℤ) : ℚ)))
      (StringRenderer.render ⟨some line, a.render_break_line_hint⟩ a.editor a.render_opts)]
  else if Vector2.lt ⟨0, line⟩ a.render_opts.view.location.toInt then
    [RenderOut.fullOut
      (StringRenderer.render StringRenderer.new a.editor (a.updateViewSize).render_opts)]
  else []

/-- The full-frame renderer exactly as claim C3 words it: for screen row `r`
and column `c` the buffer coordinates are
`(floor((location.x + c) * scale), floor((location.y + r) * scale))`, an
absent cell paints a blank unless `break_on_line_end` is set and the screen
column `c` is positive, in which case the rest of the screen row is left
untouched.  Compared against `StringRenderer.render` below. -/
def claimRowC3Aux (e : Editor) (opts : RenderOpts) (brk : Bool) (r : ℕ) :
    ℕ → ℕ → List Char
  | _, 0 => []
  | c, n + 1 =>
    let bx := ratFloor ((opts.view.location.x + (c : ℚ)) * opts.scale)
    let byy := ratFloor ((opts.view.location.y + (r : ℚ)) * opts.scale)
    match e.get_cell bx byy with
    | some cell => cell.char :: claimRowC3Aux e opts brk r (c + 1) n
    | none =>
      if brk && decide (0 < c) then []
      else ' ' :: claimRowC3Aux e opts brk r (c + 1) n

/-- Claim C3 as stated, assembled over the whole frame. -/
def renderClaimC3 (e : Editor) (opts : RenderOpts) (brk : Bool) : String :=
  String.mk (terminateRows
    ((List.range opts.view.height.toNat).map
      (fun r => claimRowC3Aux e opts brk r 0 opts.view.width.toNat)))

/-- The full-frame renderer as the amended claim C3 words it, indexed by
screen coordinates: for screen row `r` and column `c` the buffer coordinates
are the truncations `trunc((round(location.x) + c) * scale)` and
`trunc((round(location.y) + r) * scale)`; an absent cell paints a blank unless
`break_on_line_end` is set and the scaled buffer x-coordinate is positive, in
which case the rest of the screen row is left untouched. -/
def specRowC3Aux (e : Editor) (opts : RenderOpts) (brk : Bool) (r : ℕ) :
    ℕ → ℕ → List Char
  | _, 0 => []
  | c, n + 1 =>
    let bx := f64toi32 (((f64round opts.view.location.x + (c : ℤ) : ℤ) : ℚ) * opts.scale)
    let byy := f64toi32 (((f64round opts.view.location.y + (r : ℤ) : ℤ) : ℚ) * opts.scale)
    match e.get_cell bx byy with
    | some cell => cell.char :: specRowC3Aux e opts brk r (c + 1) n
    | none =>
      if brk && decide (0 < bx) then []
      else ' ' :: specRowC3Aux e opts brk r (c + 1) n

/-- The amended claim C3, assembled over the whole frame (list of rows). -/
def renderSpecC3 (e : Editor) (opts : RenderOpts) (brk : Bool) : List (List Char) :=
  (List.range opts.view.height.toNat).map
    (fun r => specRowC3Aux e opts brk r 0 opts.view.width.toNat)

/-- A two-line sample document. -/
def edHello : Editor :=
  Editor.fromString "hello\nworld"

/-- A thirty-row sample document (each row is one character). -/
def ed30 : Editor :=
  ⟨List.replicate 30 ['x'], 0, 0, false, 0, 0⟩

/-- Sample dispatcher state: fresh application on the two-line document, a
working clipboard, an 80x25 terminal. -/
def initApp : App :=
  App.new edHello (.ok "clip") (.ok ()) "f.txt" 80 25

/-- Sample dispatcher state whose clipboard paste fails. -/
def pasteErrApp : App :=
  App.new edHello (.err "clipboard unavailable") (.ok ()) "f.txt" 80 25

/-- Sample dispatcher state in command mode with an active three-character
selection on row 0 and a clipboard whose copy fails. -/
def copyErrApp : App :=
  { App.new edHello (.ok "clip") (.err "denied") "f.txt" 80 25 with
      editor := ((edHello.set_cursor 2 0).begin_select).move_cursor 3 0 }

/-- Sample dispatcher state already sitting in a (non-nested) prompt. -/
def promptApp : App :=
  { initApp with edit_mode := .Prompt .Command (some (.Search false)) }

/-- Sample dispatcher state for the Ctrl+A claim: thirty-row document, view
origin at (0,0), view 80x24. -/
def c8App : App :=
  { App.new ed30 (.ok "clip") (.ok ()) "f.txt" 80 25 with
      render_opts.view.width := 80,
      render_opts.view.height := 24 }

/-- One-row two-character document for the C3 counterexample. -/
def c3Editor : Editor :=
  ⟨[['a', 'b']], 0, 0, false, 0, 0⟩

/-- 1x1 view whose horizontal origin is the fraction 1/2, scale 1. -/
def c3Opts : RenderOpts :=
  ⟨⟨⟨1 / 2, 0⟩, 1, 1⟩, 1⟩

/-- Dispatcher state for the C4 counterexample: view origin (5,0), 10x5 view,
so buffer row 2 is inside the vertical range but column 0 is left of the
view. -/
def c4OffApp : App :=
  { App.new edHello (.ok "clip") (.ok ()) "f.txt" 80 25 with
      render_opts.view := ⟨⟨5, 0⟩, 10, 5⟩ }

/-- Dispatcher state for the C4 witness: view origin (0,0), 10x5 view. -/
def c4OnApp : App :=
  { App.new edHello (.ok "clip") (.ok ()) "f.txt" 80 25 with
      render_opts.view := ⟨⟨0, 0⟩, 10, 5⟩ }

/-- The view of the zoom round-trip scenario in claim C5. -/
def c5View : Rect :=
  ⟨⟨10, 10⟩, 80, 24⟩

/-- Render options for the C10 witness: 3x2 view at the origin, scale 1. -/
def c10Opts : RenderOpts :=
  ⟨⟨⟨0, 0⟩, 3, 2⟩, 1⟩

/-- The computable floor used in the embedding agrees with the mathematical
floor on ℚ. -/
theorem ratFloor_eq_floor (q : ℚ) : ratFloor q = ⌊q⌋ := by
  rw [ratFloor, Int.fdiv_eq_ediv _ (Int.natCast_nonneg q.den), Rat.floor_def]

theorem splitRows_ne_nil (l : List Char) : splitRows l ≠ [] := by
  induction l with
  | nil => simp [splitRows]
  | cons c rest ih =>
    simp only [splitRows]
    split
    · simp
    · cases h : splitRows rest with
      | nil => simp
      | cons r rs => simp

theorem joinRows_cons (r : List Char) (rs : List (List Char)) (h : rs ≠ []) :
    joinRows (r :: rs) = r ++ '\n' :: joinRows rs := by
  cases rs with
  | nil => exact absurd rfl h
  | cons r2 rs2 => rfl

theorem joinRows_splitRows (l : List Char) : joinRows (splitRows l) = l := by
  induction l with
  | nil => rfl
  | cons c rest ih =>
    by_cases hc : c = '\n'
    · subst hc
      have h1 : splitRows ('\n' :: rest) = [] :: splitRows rest := by
        simp [splitRows]
      rw [h1, joinRows_cons _ _ (splitRows_ne_nil rest), ih]
      rfl
    · obtain ⟨r, rs, hsplit⟩ : ∃ r rs, splitRows rest = r :: rs := by
        cases h : splitRows rest with
        | nil => exact absurd h (splitRows_ne_nil rest)
        | cons r rs => exact ⟨r, rs, rfl⟩
      have h1 : splitRows (c :: rest) = (c :: r) :: rs := by
        simp [splitRows, hc, hsplit]
      rw [h1]
      rw [hsplit] at ih
      cases rs with
      | nil =>
        have h2 : joinRows [r] = r := rfl
        rw [h2] at ih
        show c :: r = c :: rest
        rw [ih]
      | cons r2 rs2 =>
        rw [joinRows_cons _ _ (by simp)] at ih
        rw [joinRows_cons _ _ (by simp)]
        rw [List.cons_append, ih]

/-- C7 — Round-trip law: constructing an editor buffer from any text and
serializing it back yields the text exactly; `to_string` (rows joined by the
row separator) is the exact inverse of `Editor::from`. -/
theorem C7_roundtrip (s : String) : (Editor.fromString s).toString = s := by
  show String.mk (joinRows (splitRows s.data)) = s
  rw [joinRows_splitRows]

@[simp] theorem updateViewSize_scale (a : App) :
    (a.updateViewSize).render_opts.scale = a.render_opts.scale := rfl

@[simp] theorem updateViewSize_mode (a : App) :
    (a.updateViewSize).edit_mode = a.edit_mode := rfl

@[simp] theorem updateViewSize_editor (a : App) :
    (a.updateViewSize).editor = a.editor := rfl

@[simp] theorem updateCursorPos_scale (a : App) :
    (a.updateCursorPos).render_opts.scale = a.render_opts.scale := rfl

@[simp] theorem updateCursorPos_mode (a : App) :
    (a.updateCursorPos).edit_mode = a.edit_mode := rfl

@[simp] theorem updateCursorPos_editor (a : App) :
    (a.updateCursorPos).editor = a.editor := rfl

@[simp] theorem clearRenderHints_scale (a : App) :
    (a.clearRenderHints).render_opts.scale = a.render_opts.scale := rfl

@[simp] theorem clearRenderHints_mode (a : App) :
    (a.clearRenderHints).edit_mode = a.edit_mode := rfl

@[simp] theorem clearRenderHints_editor (a : App) :
    (a.clearRenderHints).editor = a.editor := rfl

@[simp] theorem renderFull_scale (a : App) :
    (a.renderFull).render_opts.scale = a.render_opts.scale := rfl

@[simp] theorem renderFull_mode (a : App) :
    (a.renderFull).edit_mode = a.edit_mode := rfl

@[simp] theorem renderFull_editor (a : App) :
    (a.renderFull).editor = a.editor := rfl

@[simp] theorem updateViewSize_hint (a : App) :
    (a.updateViewSize).render_line_hint = a.render_line_hint := rfl

@[simp] theorem renderLineState_scale (a : App) (l : ℤ) :
    (a.renderLineState l).render_opts.scale = a.render_opts.scale := by
  unfold App.renderLineState
  split
  · rfl
  · dsimp only
    split <;> rfl

@[simp] theorem renderLineState_mode (a : App) (l : ℤ) :
    (a.renderLineState l).edit_mode = a.edit_mode := by
  unfold App.renderLineState
  split
  · rfl
  · dsimp only
    split <;> rfl

@[simp] theorem renderLineState_editor (a : App) (l : ℤ) :
    (a.renderLineState l).editor = a.editor := by
  unfold App.renderLineState
  split
  · rfl
  · dsimp only
    split <;> rfl

@[simp] theorem render_scale (a : App) :
    (a.render).render_opts.scale = a.render_opts.scale := by
  unfold App.render
  dsimp only
  rw [updateViewSize_hint]
  cases a.render_line_hint with
  | none => rfl
  | some l => exact renderLineState_scale _ _

@[simp] theorem render_mode (a : App) :
    (a.render).edit_mode = a.edit_mode := by
  unfold App.render
  dsimp only
  rw [updateViewSize_hint]
  cases a.render_line_hint with
  | none => rfl
  | some l => exact renderLineState_mode _ _

@[simp] theorem render_editor (a : App) :
    (a.render).editor = a.editor := by
  unfold App.render
  dsimp only
  rw [updateViewSize_hint]
  cases a.render_line_hint with
  | none => rfl
  | some l => exact renderLineState_editor _ _

@[simp] theorem setCursor_scale (a : App) (x y : ℤ) :
    (a.setCursor x y).render_opts.scale = a.render_opts.scale := by
  unfold App.setCursor
  dsimp only
  split <;> simp

@[simp] theorem setCursor_mode (a : App) (x y : ℤ) :
    (a.setCursor x y).edit_mode = a.edit_mode := by
  unfold App.setCursor
  dsimp only
  split <;> simp

@[simp] theorem setCursor_editor (a : App) (x y : ℤ) :
    (a.setCursor x y).editor = a.editor.set_cursor x y := by
  unfold App.setCursor
  dsimp only
  split <;> simp

@[simp] theorem moveCursor_scale (a : App) (x y : ℤ) :
    (a.moveCursor x y).render_opts.scale = a.render_opts.scale := by
  unfold App.moveCursor
  dsimp only
  split <;> simp

@[simp] theorem moveCursor_mode (a : App) (x y : ℤ) :
    (a.moveCursor x y).edit_mode = a.edit_mode := by
  unfold App.moveCursor
  dsimp only
  split <;> simp

@[simp] theorem moveView_scale (a : App) (x y : ℤ) :
    (a.moveView x y).render_opts.scale = a.render_opts.scale := by
  unfold App.moveView
  simp

@[simp] theorem moveView_mode (a : App) (x y : ℤ) :
    (a.moveView x y).edit_mode = a.edit_mode := by
  unfold App.moveView
  simp

@[simp] theorem moveView_editor (a : App) (x y : ℤ) :
    (a.moveView x y).editor = a.editor := by
  unfold App.moveView
  simp

@[simp] theorem centerRenderer_scale (a : App) (loc : Vector2 ℤ) :
    (a.centerRenderer loc).render_opts.scale = a.render_opts.scale := rfl

@[simp] theorem centerRenderer_mode (a : App) (loc : Vector2 ℤ) :
    (a.centerRenderer loc).edit_mode = a.edit_mode := rfl

@[simp] theorem centerRenderer_editor (a : App) (loc : Vector2 ℤ) :
    (a.centerRenderer loc).editor = a.editor := rfl

@[simp] theorem goToLineHome_scale (a : App) :
    (a.goToLineHome).render_opts.scale = a.render_opts.scale := rfl

@[simp] theorem goToLineHome_mode (a : App) :
    (a.goToLineHome).edit_mode = a.edit_mode := rfl

@[simp] theorem goToLineEnd_scale (a : App) :
    (a.goToLineEnd).render_opts.scale = a.render_opts.scale := rfl

@[simp] theorem goToLineEnd_mode (a : App) :
    (a.goToLineEnd).edit_mode = a.edit_mode := rfl

@[simp] theorem deleteLine_scale (a : App) :
    (a.deleteLine).render_opts.scale = a.render_opts.scale := by
  unfold App.deleteLine
  dsimp only
  split <;> rfl

@[simp] theorem deleteLine_mode (a : App) :
    (a.deleteLine).edit_mode = a.edit_mode := by
  unfold App.deleteLine
  dsimp only
  split <;> rfl

@[simp] theorem searchNext_scale (a : App) (t : String) (rev : Bool) :
    (a.searchNext t rev).render_opts.scale = a.render_opts.scale := by
  simp only [App.searchNext]
  split
  · split <;> simp
  · rfl

@[simp] theorem searchNext_mode (a : App) (t : String) (rev : Bool) :
    (a.searchNext t rev).edit_mode = a.edit_mode := by
  simp only [App.searchNext]
  split
  · split <;> simp
  · rfl

@[simp] theorem nextWord_scale (a : App) (f : Bool) :
    (a.nextWord f).render_opts.scale = a.render_opts.scale := rfl

@[simp] theorem nextWord_mode (a : App) (f : Bool) :
    (a.nextWord f).edit_mode = a.edit_mode := rfl

theorem processPromptMode_scale (a : App) (ev : KeyEvent) (act : Option Action)
    (ret : EditMode) :
    (a.processPromptMode ev act ret).render_opts.scale = a.render_opts.scale := by
  unfold App.processPromptMode
  cases ev <;> simp
  case Up => cases act with
    | none => rfl
    | some ac => cases ac <;> simp
  case Enter => cases act with
    | none => rfl
    | some ac => cases ac <;> simp

theorem processPromptMode_mode (a : App) (ev : KeyEvent) (act : Option Action)
    (ret : EditMode) :
    (a.processPromptMode ev act ret).edit_mode = a.edit_mode ∨
      (a.processPromptMode ev act ret).edit_mode = ret := by
  unfold App.processPromptMode
  cases ev <;> simp
  case Up => cases act with
    | none => simp
    | some ac => cases ac <;> simp

theorem processInsertMode_scale (a : App) (ev : KeyEvent) :
    (a.processInsertMode ev).render_opts.scale = a.render_opts.scale := by
  unfold App.processInsertMode
  cases ev <;> simp
  case Backspace =>
    split
    · split <;> simp
    · simp

theorem processInsertMode_mode (a : App) (ev : KeyEvent) :
    (a.processInsertMode ev).edit_mode = a.edit_mode ∨
      (a.processInsertMode ev).edit_mode = .Command := by
  unfold App.processInsertMode
  cases ev <;> simp
  case Backspace =>
    split
    · split <;> simp
    · simp

theorem processCommandMode_scale (a : App) (ev : KeyEvent)
    (h : 0 ≤ a.render_opts.scale) :
    0 ≤ (a.processCommandMode ev).render_opts.scale := by
  unfold App.processCommandMode
  cases ev <;> simp [h]
  case Char ch =>
    by_cases h1 : ch = 'i' <;> simp [h1, h]
    by_cases h2 : ch = 'o' <;> simp [h2, h]
    by_cases h3 : ch = 'O' <;> simp [h3, h]
    by_cases h4 : ch = 'J' <;> simp [h4, h]
    by_cases h5 : ch = 'K' <;> simp [h5, h]
    by_cases h6 : ch = 'H' <;> simp [h6, h]
    by_cases h7 : ch = 'L' <;> simp [h7, h]
    by_cases h8 : ch = 'v' <;> simp [h8, h]
    by_cases h9 : ch = 'd' <;> simp [h9, h]
    by_cases h10 : ch = 'c' <;> simp [h10, h]
    · split
      · split <;> simp [h]
      · simp [h]
    by_cases h11 : ch = '/' <;> simp [h11, h]
    by_cases h12 : ch = '?' <;> simp [h12, h]
    by_cases h13 : ch = 'n' <;> simp [h13, h]
    by_cases h14 : ch = 'N' <;> simp [h14, h]
    by_cases h15 : ch = 'j' <;> simp [h15, h]
    by_cases h16 : ch = 'k' <;> simp [h16, h]
    by_cases h17 : ch = 'h' <;> simp [h17, h]
    by_cases h18 : ch = 'l' <;> simp [h18, h]
    by_cases h19 : ch = 'w' <;> simp [h19, h]
    by_cases h20 : ch = 'b' <;> simp [h20, h]
    by_cases h21 : ch = '$' <;> simp [h21, h]
    by_cases h22 : ch = '0' <;> simp [h22, h]
    by_cases h23 : ch = '_' <;> simp [h23, h]
    · linarith
    by_cases h24 : ch = '+' <;> simp [h24, h]
    · split
      · simp
      · rename_i hpos
        simp at hpos
        simp
        linarith
    by_cases h25 : ch = '=' <;> simp [h25, h]

theorem processCommandMode_mode (a : App) (ev : KeyEvent) :
    (a.processCommandMode ev).edit_mode = a.edit_mode ∨
      (a.processCommandMode ev).edit_mode = .Insert ∨
      (a.processCommandMode ev).edit_mode = .Prompt a.edit_mode (some (.Search false)) ∨
      (a.processCommandMode ev).edit_mode = .Prompt a.edit_mode (some (.Search true)) := by
  unfold App.processCommandMode
  cases ev <;> simp
  case Char ch =>
    by_cases h1 : ch = 'i' <;> simp [h1]
    by_cases h2 : ch = 'o' <;> simp [h2]
    by_cases h3 : ch = 'O' <;> simp [h3]
    by_cases h4 : ch = 'J' <;> simp [h4]
    by_cases h5 : ch = 'K' <;> simp [h5]
    by_cases h6 : ch = 'H' <;> simp [h6]
    by_cases h7 : ch = 'L' <;> simp [h7]
    by_cases h8 : ch = 'v' <;> simp [h8]
    by_cases h9 : ch = 'd' <;> simp [h9]
    by_cases h10 : ch = 'c' <;> simp [h10]
    · left
      split
      · split <;> simp
      · simp
    by_cases h11 : ch = '/' <;> simp [h11]
    by_cases h12 : ch = '?' <;> simp [h12]
    by_cases h13 : ch = 'n' <;> simp [h13]
    by_cases h14 : ch = 'N' <;> simp [h14]
    by_cases h15 : ch = 'j' <;> simp [h15]
    by_cases h16 : ch = 'k' <;> simp [h16]
    by_cases h17 : ch = 'h' <;> simp [h17]
    by_cases h18 : ch = 'l' <;> simp [h18]
    by_cases h19 : ch = 'w' <;> simp [h19]
    by_cases h20 : ch = 'b' <;> simp [h20]
    by_cases h21 : ch = '$' <;> simp [h21]
    by_cases h22 : ch = '0' <;> simp [h22]
    by_cases h23 : ch = '_' <;> simp [h23]
    by_cases h24 : ch = '+' <;> simp [h24]
    · left
      split <;> simp
    by_cases h25 : ch = '=' <;> simp [h25]

theorem isNestedPrompt_prompt (m : EditMode) (act : Option Action) :
    (EditMode.Prompt m act).isNestedPrompt = m.isPromptMode := by
  cases m <;> rfl

theorem isNestedPrompt_of_not_prompt (m : EditMode) (h : m.isPromptMode = false) :
    m.isNestedPrompt = false := by
  cases m with
  | Prompt r act => exact absurd h (by simp [EditMode.isPromptMode])
  | Command => rfl
  | Insert => rfl

theorem dispatchMode_scale (a : App) (ev : KeyEvent) (h : 0 ≤ a.render_opts.scale) :
    0 ≤ (a.dispatchMode ev).render_opts.scale := by
  unfold App.dispatchMode
  split
  · rw [processInsertMode_scale]; exact h
  · exact processCommandMode_scale a ev h
  · rw [processPromptMode_scale]; exact h

theorem dispatchMode_not_nested (a : App) (ev : KeyEvent)
    (h : a.edit_mode.isNestedPrompt = false) :
    ((a.dispatchMode ev).edit_mode).isNestedPrompt = false := by
  unfold App.dispatchMode
  split
  case _ hm =>
    rcases processInsertMode_mode a ev with h2 | h2 <;> rw [h2]
    · exact h
    · rfl
  case _ hm =>
    rcases processCommandMode_mode a ev with h2 | h2 | h2 | h2 <;> rw [h2]
    · exact h
    · rfl
    · rw [isNestedPrompt_prompt, hm]; rfl
    · rw [isNestedPrompt_prompt, hm]; rfl
  case _ mode action hm =>
    have hmp : mode.isPromptMode = false := by
      rw [hm, isNestedPrompt_prompt] at h
      exact h
    rcases processPromptMode_mode a ev action mode with h2 | h2 <;> rw [h2]
    · exact h
    · exact isNestedPrompt_of_not_prompt mode hmp

theorem processKeyEvent_scale (a : App) (ev : KeyEvent) (a2 : App)
    (hstep : a.processKeyEvent ev = some a2) (h : 0 ≤ a.render_opts.scale) :
    0 ≤ a2.render_opts.scale := by
  have hdm : ∀ e, 0 ≤ ((a.dispatchMode e)).render_opts.scale :=
    fun e => dispatchMode_scale a e h
  cases ev with
  | CtrlDown =>
    simp only [App.processKeyEvent, Option.some.injEq] at hstep; subst hstep; simp [h]
  | CtrlUp =>
    simp only [App.processKeyEvent, Option.some.injEq] at hstep; subst hstep; simp [h]
  | CtrlRight =>
    simp only [App.processKeyEvent, Option.some.injEq] at hstep; subst hstep; simp [h]
  | CtrlLeft =>
    simp only [App.processKeyEvent, Option.some.injEq] at hstep; subst hstep; simp [h]
  | F n =>
    simp only [App.processKeyEvent] at hstep
    split at hstep
    · simp only [Option.some.injEq] at hstep; subst hstep; exact h
    · split at hstep
      · simp only [Option.some.injEq] at hstep; subst hstep; simp [h]
      · simp only [Option.some.injEq] at hstep; subst hstep; exact hdm _
  | Ctrl c =>
    simp only [App.processKeyEvent] at hstep
    split at hstep
    · simp only [Option.some.injEq] at hstep; subst hstep; exact h
    · split at hstep
      · simp only [Option.some.injEq] at hstep; subst hstep; simp [h]
      · split at hstep
        · simp only [Option.some.injEq] at hstep; subst hstep; simp [h]
        · split at hstep
          · split at hstep
            · exact absurd hstep (by simp)
            · simp only [Option.some.injEq] at hstep; subst hstep; simp [h]
          · split at hstep
            · simp only [Option.some.injEq] at hstep; subst hstep; simp [h]
            · split at hstep
              · simp only [Option.some.injEq] at hstep; subst hstep; simp [h]
              · split at hstep
                · simp only [Option.some.injEq] at hstep; subst hstep; simp [h]
                · simp only [Option.some.injEq] at hstep; subst hstep; exact hdm _
  | Home =>
    simp only [App.processKeyEvent, Option.some.injEq] at hstep; subst hstep; simp [h]
  | End =>
    simp only [App.processKeyEvent, Option.some.injEq] at hstep; subst hstep; simp [h]
  | Char c =>
    simp only [App.processKeyEvent, Option.some.injEq] at hstep; subst hstep; exact hdm _
  | Up =>
    simp only [App.processKeyEvent, Option.some.injEq] at hstep; subst hstep; exact hdm _
  | Down =>
    simp only [App.processKeyEvent, Option.some.injEq] at hstep; subst hstep; exact hdm _
  | Left =>
    simp only [App.processKeyEvent, Option.some.injEq] at hstep; subst hstep; exact hdm _
  | Right =>
    simp only [App.processKeyEvent, Option.some.injEq] at hstep; subst hstep; exact hdm _
  | Backspace =>
    simp only [App.processKeyEvent, Option.some.injEq] at hstep; subst hstep; exact hdm _
  | Enter =>
    simp only [App.processKeyEvent, Option.some.injEq] at hstep; subst hstep; exact hdm _
  | Esc =>
    simp only [App.processKeyEvent, Option.some.injEq] at hstep; subst hstep; exact hdm _
  | Other =>
    simp only [App.processKeyEvent, Option.some.injEq] at hstep; subst hstep; exact hdm _

theorem applyEvents_scale (evs : List KeyEvent) : ∀ (a a2 : App),
    App.applyEvents a evs = some a2 → 0 ≤ a.render_opts.scale →
      0 ≤ a2.render_opts.scale := by
  induction evs with
  | nil =>
    intro a a2 hstep h
    simp only [App.applyEvents, Option.some.injEq] at hstep
    subst hstep
    exact h
  | cons ev evs ih =>
    intro a a2 hstep h
    unfold App.applyEvents at hstep
    split at hstep
    · exact absurd hstep (by simp)
    · rename_i a3 hs
      exact ih a3 a2 hstep (processKeyEvent_scale a ev a3 hs h)

/-- C2 — corrected nesting claim.  A single key-event transition from a state
whose mode is not already a nested prompt produces a nested
`Prompt(Prompt(...), _)` exactly when the event is Ctrl+X (the global save-as
binding, which wraps whatever the current mode is) and the current mode is
itself a Prompt.  In particular no transition out of Command or Insert mode
nests prompts, but Ctrl+X pressed inside a prompt does. -/
theorem C2_nested_prompt (a : App) (ev : KeyEvent) (a2 : App)
    (h : a.edit_mode.isNestedPrompt = false) (hstep : a.processKeyEvent ev = some a2) :
    (a2.edit_mode.isNestedPrompt = true ↔
      (ev = .Ctrl 'x' ∧ a.edit_mode.isPromptMode = true)) := by
  have hdm : ∀ e, ((a.dispatchMode e).edit_mode).isNestedPrompt = false :=
    fun e => dispatchMode_not_nested a e h
  cases ev with
  | CtrlDown =>
    simp only [App.processKeyEvent, Option.some.injEq] at hstep; subst hstep; simp [h]
  | CtrlUp =>
    simp only [App.processKeyEvent, Option.some.injEq] at hstep; subst hstep; simp [h]
  | CtrlRight =>
    simp only [App.processKeyEvent, Option.some.injEq] at hstep; subst hstep; simp [h]
  | CtrlLeft =>
    simp only [App.processKeyEvent, Option.some.injEq] at hstep; subst hstep; simp [h]
  | F n =>
    simp only [App.processKeyEvent] at hstep
    split at hstep
    · simp only [Option.some.injEq] at hstep; subst hstep; simp [h]
    · split at hstep
      · simp only [Option.some.injEq] at hstep; subst hstep; simp [h]
      · simp only [Option.some.injEq] at hstep; subst hstep; simp [hdm _]
  | Ctrl c =>
    simp only [App.processKeyEvent] at hstep
    split at hstep
    · rename_i hc
      simp only [Option.some.injEq] at hstep; subst hstep; simp [h, hc]
    · rename_i hc1
      split at hstep
      · rename_i hc
        simp only [Option.some.injEq] at hstep; subst hstep; simp [h, hc]
      · rename_i hc2
        split at hstep
        · rename_i hc
          simp only [Option.some.injEq] at hstep; subst hstep; simp [h, hc]
        · rename_i hc3
          split at hstep
          · rename_i hc
            split at hstep
            · exact absurd hstep (by simp)
            · simp only [Option.some.injEq] at hstep; subst hstep; simp [h, hc]
          · rename_i hc4
            split at hstep
            · rename_i hc
              simp only [Option.some.injEq] at hstep; subst hstep; simp [h, hc]
            · rename_i hc5
              split at hstep
              · rename_i hc
                simp only [Option.some.injEq] at hstep; subst hstep; simp [h, hc]
              · rename_i hc6
                split at hstep
                · rename_i hc
                  subst hc
                  simp only [Option.some.injEq] at hstep; subst hstep
                  simp [isNestedPrompt_prompt]
                · rename_i hc7
                  simp only [Option.some.injEq] at hstep; subst hstep
                  simp [hdm _, hc7]
  | Home =>
    simp only [App.processKeyEvent, Option.some.injEq] at hstep; subst hstep; simp [h]
  | End =>
    simp only [App.processKeyEvent, Option.some.injEq] at hstep; subst hstep; simp [h]
  | Char c =>
    simp only [App.processKeyEvent, Option.some.injEq] at hstep; subst hstep; simp [hdm _]
  | Up =>
    simp only [App.processKeyEvent, Option.some.injEq] at hstep; subst hstep; simp [hdm _]
  | Down =>
    simp only [App.processKeyEvent, Option.some.injEq] at hstep; subst hstep; simp [hdm _]
  | Left =>
    simp only [App.processKeyEvent, Option.some.injEq] at hstep; subst hstep; simp [hdm _]
  | Right =>
    simp only [App.processKeyEvent, Option.some.injEq] at hstep; subst hstep; simp [hdm _]
  | Backspace =>
    simp only [App.processKeyEvent, Option.some.injEq] at hstep; subst hstep; simp [hdm _]
  | Enter =>
    simp only [App.processKeyEvent, Option.some.injEq] at hstep; subst hstep; simp [hdm _]
  | Esc =>
    simp only [App.processKeyEvent, Option.some.injEq] at hstep; subst hstep; simp [hdm _]
  | Other =>
    simp only [App.processKeyEvent, Option.some.injEq] at hstep; subst hstep; simp [hdm _]

@[simp] theorem updateViewSize_loc (a : App) :
    (a.updateViewSize).render_opts.view.location = a.render_opts.view.location := rfl

@[simp] theorem updateCursorPos_loc (a : App) :
    (a.updateCursorPos).render_opts.view.location = a.render_opts.view.location := rfl

@[simp] theorem clearRenderHints_loc (a : App) :
    (a.clearRenderHints).render_opts.view.location = a.render_opts.view.location := rfl

@[simp] theorem renderFull_loc (a : App) :
    (a.renderFull).render_opts.view.location = a.render_opts.view.location := rfl

@[simp] theorem renderLineState_loc (a : App) (l : ℤ) :
    (a.renderLineState l).render_opts.view.location = a.render_opts.view.location := by
  unfold App.renderLineState
  split
  · rfl
  · dsimp only
    split <;> rfl

@[simp] theorem render_loc (a : App) :
    (a.render).render_opts.view.location = a.render_opts.view.location := by
  unfold App.render
  dsimp only
  rw [updateViewSize_hint]
  cases a.render_line_hint with
  | none => rfl
  | some l => exact renderLineState_loc _ _

@[simp] theorem updateViewSize_log (a : App) : (a.updateViewSize).log = a.log := rfl

@[simp] theorem updateCursorPos_log (a : App) : (a.updateCursorPos).log = a.log := rfl

@[simp] theorem clearRenderHints_log (a : App) : (a.clearRenderHints).log = a.log := rfl

@[simp] theorem renderFull_log (a : App) : (a.renderFull).log = a.log := rfl

@[simp] theorem renderLineState_log (a : App) (l : ℤ) :
    (a.renderLineState l).log = a.log := by
  unfold App.renderLineState
  split
  · rfl
  · dsimp only
    split <;> rfl

@[simp] theorem render_log (a : App) : (a.render).log = a.log := by
  unfold App.render
  dsimp only
  rw [updateViewSize_hint]
  cases a.render_line_hint with
  | none => rfl
  | some l => exact renderLineState_log _ _

@[simp] theorem updateViewSize_exit (a : App) : (a.updateViewSize).exit = a.exit := rfl

@[simp] theorem updateCursorPos_exit (a : App) : (a.updateCursorPos).exit = a.exit := rfl

@[simp] theorem clearRenderHints_exit (a : App) : (a.clearRenderHints).exit = a.exit := rfl

@[simp] theorem renderFull_exit (a : App) : (a.renderFull).exit = a.exit := rfl

@[simp] theorem renderLineState_exit (a : App) (l : ℤ) :
    (a.renderLineState l).exit = a.exit := by
  unfold App.renderLineState
  split
  · rfl
  · dsimp only
    split <;> rfl

@[simp] theorem render_exit (a : App) : (a.render).exit = a.exit := by
  unfold App.render
  dsimp only
  rw [updateViewSize_hint]
  cases a.render_line_hint with
  | none => rfl
  | some l => exact renderLineState_exit _ _

theorem commandPlus_eq (a : App) :
    a.processCommandMode (.Char '+') =
      (if a.render_opts.scale - 1 / 10 ≤ (0 : ℚ) then
        { a with render_opts := ⟨a.render_opts.view, 0⟩ }
      else
        { a with render_opts :=
            ⟨reanchorView a.render_opts.view a.render_opts.scale (a.render_opts.scale - 1 / 10),
              a.render_opts.scale - 1 / 10⟩ }).render := rfl

theorem commandUnderscore_eq (a : App) :
    a.processCommandMode (.Char '_') =
      ({ a with render_opts :=
          ⟨reanchorView a.render_opts.view a.render_opts.scale (a.render_opts.scale + 1 / 10),
            a.render_opts.scale + 1 / 10⟩ }).render := rfl

theorem commandEqualKey_eq (a : App) :
    a.processCommandMode (.Char '=') =
      ({ a with
          render_opts := ⟨reanchorView a.render_opts.view a.render_opts.scale 1, 1⟩,
          log := "reset render scale to 1" }).render := rfl

theorem commandC_eq (a : App) :
    a.processCommandMode (.Char 'c') =
      (match a.editor.copy with
       | some _ =>
         match a.copyResult with
         | .ok _ => { a with log := "copied to clipboard" }
         | .err e => { a with log := "error copying: " ++ e }
       | none => a).render := rfl

theorem ctrlA_eq (a : App) :
    a.processKeyEvent (.Ctrl 'a') =
      some (a.setCursor 0
        (f64toi32 a.render_opts.view.location.y + Int.tdiv a.render_opts.view.height 2)) := rfl

theorem ctrlV_eq (a : App) :
    a.processKeyEvent (.Ctrl 'v') =
      (match a.pasteResult with
       | .err _ => none
       | .ok s =>
         some ({ a with
             editor :=
               (s.data.filter (fun ch => ch ≠ '\r')).foldl (fun ed ch => ed.write ch)
                 a.editor }).render) := rfl

theorem dispatchMode_command_eq (a : App) (ev : KeyEvent) (hm : a.edit_mode = .Command) :
    a.dispatchMode ev = a.processCommandMode ev := by
  unfold App.dispatchMode
  rw [hm]

theorem processKeyEvent_char_eq (a : App) (c : Char) :
    a.processKeyEvent (.Char c) = some (a.dispatchMode (.Char c)) := rfl

/-- C2 — counterexample to the claim as stated.  From the initial dispatcher
state (mode Command) the two key events '/' then Ctrl+X produce the nested
mode `Prompt(Prompt(Command, Search(false)), SaveFileAs)`: the global Ctrl+X
binding wraps the prompt opened by '/'. -/
theorem C2_counterexample :
    (App.applyEvents initApp [.Char '/', .Ctrl 'x']).map (fun a => a.edit_mode) =
      some (.Prompt (.Prompt .Command (some (.Search false))) (some .SaveFileAs)) := by
  decide

/-- Witness for C2.  In a state already inside a (non-nested) prompt, Ctrl+X
produces a nested prompt, as the corrected claim asserts. -/
theorem C2_nested_prompt_witness :
    (((promptApp.processKeyEvent (.Ctrl 'x')).getD promptApp).edit_mode).isNestedPrompt =
      true := by
  have hstep : promptApp.processKeyEvent (.Ctrl 'x') =
      some ((promptApp.processKeyEvent (.Ctrl 'x')).getD promptApp) := by decide
  exact (C2_nested_prompt promptApp (.Ctrl 'x') _ (by decide) hstep).mpr ⟨rfl, by decide⟩

/-- C1 — corrected clipboard-failure claim.  A failing clipboard copy
(command-mode 'c') is surfaced as the human-readable log line
`error copying: <message>` without panicking; the event loop survives and the
text buffer is untouched.  A failing clipboard paste (the global Ctrl+V
binding), however, panics the event loop: `process_key_event` unwraps the
paste result, modelled as the `none` outcome. -/
theorem C1_clipboard_errors :
    (∀ (a : App) (e : String), a.pasteResult = .err e →
        a.processKeyEvent (.Ctrl 'v') = none) ∧
    (∀ (a : App) (e : String), a.edit_mode = .Command → a.copyResult = .err e →
        ∀ a2 : App, a.processKeyEvent (.Char 'c') = some a2 →
          a2.editor = a.editor ∧ a2.exit = a.exit ∧
            (a.editor.copy ≠ none → a2.log = "error copying: " ++ e)) := by
  constructor
  · intro a e hp
    rw [ctrlV_eq, hp]
  · intro a e hm hc a2 hstep
    rw [processKeyEvent_char_eq, dispatchMode_command_eq a _ hm, commandC_eq,
      Option.some.injEq] at hstep
    subst hstep
    refine ⟨?_, ?_, ?_⟩
    · rw [render_editor]
      split
      · split <;> rfl
      · rfl
    · rw [render_exit]
      split
      · split <;> rfl
      · rfl
    · intro hcopy
      rw [render_log]
      split
      · rw [hc]
      · rename_i hnone
        exact absurd hnone hcopy

/-- C1 — counterexample to the claim as stated: with a failing paste
capability, the Ctrl+V handler panics the event loop (models
`self.clipboard.paste().unwrap()` at src/application.rs line 331), so a paste
error is neither surfaced in the status log nor survived. -/
theorem C1_counterexample :
    pasteErrApp.processKeyEvent (.Ctrl 'v') = none := by
  decide

/-- Witness for C1: the paste-error panic and the copy-error log line at
concrete states. -/
theorem C1_clipboard_errors_witness :
    pasteErrApp.processKeyEvent (.Ctrl 'v') = none ∧
    ((copyErrApp.processKeyEvent (.Char 'c')).getD copyErrApp).log =
      "error copying: denied" := by
  constructor
  · exact C1_clipboard_errors.1 pasteErrApp "clipboard unavailable" rfl
  · have hstep : copyErrApp.processKeyEvent (.Char 'c') =
        some ((copyErrApp.processKeyEvent (.Char 'c')).getD copyErrApp) := by decide
    exact (C1_clipboard_errors.2 copyErrApp "denied" rfl rfl _ hstep).2.2 (by decide)

/-- C6 — scale invariant.  Starting from the default scale 1, every surviving
run of key events leaves the scale non-negative; in command mode the zoom-in
key '+' subtracts 0.1 and clamps any result at or below 0 to exactly 0,
leaving the view origin unmoved in that case (the re-anchoring is skipped);
the zoom-out key '_' adds 0.1, so it only increases the scale; the reset key
'=' sets the scale to exactly 1. -/
theorem C6_scale_invariant :
    (∀ (ed : Editor) (pr : CbResult String) (cr : CbResult Unit) (fp : String)
        (tc tr : ℤ) (evs : List KeyEvent) (a2 : App),
        App.applyEvents (App.new ed pr cr fp tc tr) evs = some a2 →
          0 ≤ a2.render_opts.scale) ∧
    (∀ (a a2 : App), a.edit_mode = .Command →
        a.processKeyEvent (.Char '+') = some a2 →
          (a2.render_opts.scale =
            if a.render_opts.scale - 1 / 10 ≤ (0 : ℚ) then 0
            else a.render_opts.scale - 1 / 10) ∧
          (a.render_opts.scale - 1 / 10 ≤ (0 : ℚ) →
            a2.render_opts.view.location = a.render_opts.view.location)) ∧
    (∀ (a a2 : App), a.edit_mode = .Command →
        a.processKeyEvent (.Char '_') = some a2 →
          a2.render_opts.scale = a.render_opts.scale + 1 / 10) ∧
    (∀ (a a2 : App), a.edit_mode = .Command →
        a.processKeyEvent (.Char '=') = some a2 →
          a2.render_opts.scale = 1) := by
  refine ⟨?_, ?_, ?_, ?_⟩
  · intro ed pr cr fp tc tr evs a2 hrun
    exact applyEvents_scale evs _ a2 hrun (by norm_num [App.new, RenderOpts.default])
  · intro a a2 hm hstep
    rw [processKeyEvent_char_eq, dispatchMode_command_eq a _ hm, commandPlus_eq,
      Option.some.injEq] at hstep
    subst hstep
    constructor
    · split
      · simp
      · simp
    · intro hle
      rw [if_pos hle]
      simp
  · intro a a2 hm hstep
    rw [processKeyEvent_char_eq, dispatchMode_command_eq a _ hm, commandUnderscore_eq,
      Option.some.injEq] at hstep
    subst hstep
    rw [render_scale]
  · intro a a2 hm hstep
    rw [processKeyEvent_char_eq, dispatchMode_command_eq a _ hm, commandEqualKey_eq,
      Option.some.injEq] at hstep
    subst hstep
    rw [render_scale]

/-- Witness for C6: a concrete run of three zoom-in presses from the initial
state survives and its scale is non-negative (indeed the invariant theorem
applies to it). -/
theorem C6_scale_invariant_witness :
    0 ≤ ((App.applyEvents (App.new edHello (.ok "clip") (.ok ()) "f.txt" 80 25)
        [KeyEvent.Char '+', KeyEvent.Char '+', KeyEvent.Char '+']).getD
          initApp).render_opts.scale := by
  have hstep : App.applyEvents (App.new edHello (.ok "clip") (.ok ()) "f.txt" 80 25)
      [KeyEvent.Char '+', KeyEvent.Char '+', KeyEvent.Char '+'] =
        some ((App.applyEvents (App.new edHello (.ok "clip") (.ok ()) "f.txt" 80 25)
          [KeyEvent.Char '+', KeyEvent.Char '+', KeyEvent.Char '+']).getD initApp) := by
    decide
  exact C6_scale_invariant.1 edHello (.ok "clip") (.ok ()) "f.txt" 80 25 _ _ hstep

theorem set_cursor_x_zero (e : Editor) (y : ℤ) : (e.set_cursor 0 y).cx = 0 := by
  show (min (max (0 : ℤ) 0)
      (((e.rows.getD ((min (max y 0) ((e.rows.length : ℤ) - 1)).toNat) []).length : ℕ) : ℤ)).toNat
    = 0
  rw [max_self, min_eq_left (Int.natCast_nonneg _)]
  rfl

/-- C8 — corrected Ctrl+A claim.  In every edit mode the global Ctrl+A binding
sets the cursor through `set_cursor(0, y)` where
`y = trunc(location.y) + height/2` (integer division): the vertical middle of
the viewport, not its top row `location.y`.  The editor then clamps the target
to the document, the resulting column is 0, and the edit mode is unchanged. -/
theorem C8_ctrl_a (a a2 : App)
    (hstep : a.processKeyEvent (.Ctrl 'a') = some a2) :
    a2.editor = a.editor.set_cursor 0
        (f64toi32 a.render_opts.view.location.y + Int.tdiv a.render_opts.view.height 2) ∧
    a2.editor.cx = 0 ∧ a2.edit_mode = a.edit_mode := by
  rw [ctrlA_eq, Option.some.injEq] at hstep
  subst hstep
  refine ⟨setCursor_editor _ _ _, ?_, setCursor_mode _ _ _⟩
  rw [setCursor_editor]
  exact set_cursor_x_zero _ _

/-- C8 — counterexample to the claim as stated: on a thirty-row document with
the view at origin (0,0) and height 24, Ctrl+A moves the cursor to row 12 (the
middle of the viewport), not to row `location.y = 0` (its top). -/
theorem C8_counterexample :
    (c8App.processKeyEvent (.Ctrl 'a')).map (fun x => x.editor.cursor_pos) =
      some ⟨0, 12⟩ ∧
    c8App.render_opts.view.location.y = 0 ∧ (12 : ℤ) ≠ 0 := by
  decide

/-- Witness for C8 at a concrete state. -/
theorem C8_ctrl_a_witness :
    ((c8App.processKeyEvent (.Ctrl 'a')).getD c8App).editor.cx = 0 := by
  have hstep : c8App.processKeyEvent (.Ctrl 'a') =
      some ((c8App.processKeyEvent (.Ctrl 'a')).getD c8App) := by decide
  exact (C8_ctrl_a c8App _ hstep).2.1

/-- C5 — the zoom re-anchoring preserves the viewport center in buffer space.
A view coordinate `p` corresponds to the buffer point `p * scale` (the renderer
reads `get_cell` at the scaled coordinates), so the property is: the new center
point times the new scale equals the old center point times the old scale, for
any view geometry and positive scales.  In particular the concrete scenario of
the claim holds exactly: re-anchoring the view `{(10,10), 80, 24}` from scale 1
to 2 and back restores the original location. -/
theorem C5_zoom_preserves_center :
    (∀ (v : Rect) (s1 s2 : ℚ), 0 < s1 → 0 < s2 →
        ((reanchorView v s1 s2).center_point).scalar s2 = (v.center_point).scalar s1) ∧
    (reanchorView (reanchorView c5View 1 2) 2 1).location = c5View.location := by
  constructor
  · intro v s1 s2 _ hs2
    unfold reanchorView transform_view_coordinates Rect.center_point Rect.center
    simp only [Vector2.add, Vector2.sub, Vector2.scalar, Vector2.scalar_div,
      Vector2.mk.injEq]
    constructor
    · rw [sub_add_cancel, div_mul_cancel₀ _ (ne_of_gt hs2)]
    · rw [sub_add_cancel, div_mul_cancel₀ _ (ne_of_gt hs2)]
  · decide

/-- Witness for C5 at the concrete view and scales of the claim scenario. -/
theorem C5_zoom_preserves_center_witness :
    ((reanchorView c5View 1 2).center_point).scalar 2 = (c5View.center_point).scalar 1 :=
  C5_zoom_preserves_center.1 c5View 1 2 (by norm_num) (by norm_num)

/-- C9 — the `Rect::contains` test is exactly the half-open box containment
`location.x ≤ p.x < location.x + width` and `location.y ≤ p.y < location.y +
height`; and `update_cursor_pos` shows the terminal caret (clears
`cursor_hidden`) exactly when the cursor passes this test, positioning it at
the cursor minus the rounded view origin, and hides it otherwise. -/
theorem C9_contains_caret :
    (∀ (r : Rect) (p : Vector2 ℚ),
        r.contains p = true ↔
          (r.location.x ≤ p.x ∧ p.x < r.location.x + (r.width : ℚ) ∧
            r.location.y ≤ p.y ∧ p.y < r.location.y + (r.height : ℚ))) ∧
    (∀ a : App,
        ((a.updateCursorPos).cursor_hidden = false ↔
          a.render_opts.view.contains a.editor.cursor_pos.toRat = true) ∧
        a.caretState =
          (if a.render_opts.view.contains a.editor.cursor_pos.toRat = true then
            some ⟨a.editor.cursor_pos.x - f64round a.render_opts.view.location.x,
                  a.editor.cursor_pos.y - f64round a.render_opts.view.location.y⟩
          else none)) := by
  constructor
  · intro r p
    simp [Rect.contains, ge_iff_le, and_assoc]
  · intro a
    constructor
    · show (!a.render_opts.view.contains a.editor.cursor_pos.toRat) = false ↔ _
      simp
    · rfl

theorem renderRowFrom_succ (sr : StringRenderer) (e : Editor) (opts : RenderOpts)
    (y x : ℤ) (n : ℕ) :
    renderRowFrom sr e opts y x (n + 1) =
      (match e.get_cell (f64toi32 ((x : ℚ) * opts.scale))
          (f64toi32 ((y : ℚ) * opts.scale)) with
        | some cell => cell.char :: renderRowFrom sr e opts y (x + 1) n
        | none =>
          if sr.break_on_line_end && decide (0 < f64toi32 ((x : ℚ) * opts.scale)) then []
          else ' ' :: renderRowFrom sr e opts y (x + 1) n) := rfl

theorem specRowC3Aux_succ (e : Editor) (opts : RenderOpts) (brk : Bool) (r c n : ℕ) :
    specRowC3Aux e opts brk r c (n + 1) =
      (match e.get_cell
          (f64toi32 (((f64round opts.view.location.x + (c : ℤ) : ℤ) : ℚ) * opts.scale))
          (f64toi32 (((f64round opts.view.location.y + (r : ℤ) : ℤ) : ℚ) * opts.scale)) with
        | some cell => cell.char :: specRowC3Aux e opts brk r (c + 1) n
        | none =>
          if brk && decide (0 <
              f64toi32 (((f64round opts.view.location.x + (c : ℤ) : ℤ) : ℚ) * opts.scale))
            then []
          else ' ' :: specRowC3Aux e opts brk r (c + 1) n) := rfl

theorem renderRowFrom_spec (e : Editor) (opts : RenderOpts) (brk : Bool) (r : ℕ) :
    ∀ (n c : ℕ),
      renderRowFrom ⟨none, brk⟩ e opts (f64round opts.view.location.y + (r : ℤ))
          (f64round opts.view.location.x + (c : ℤ)) n =
        specRowC3Aux e opts brk r c n := by
  intro n
  induction n with
  | zero => intro c; rfl
  | succ n ih =>
    intro c
    have ih2 := ih (c + 1)
    have hx : f64round opts.view.location.x + ((c + 1 : ℕ) : ℤ) =
        f64round opts.view.location.x + (c : ℤ) + 1 := by
      push_cast
      ring
    rw [hx] at ih2
    rw [renderRowFrom_succ, specRowC3Aux_succ, ih2]

/-- C3 — the full-frame renderer, corrected.  With no line hint, the rendered
rows are exactly those described by the amended claim: for screen row `r` and
column `c` the cell read is at
`(trunc((round(location.x) + c) * scale), trunc((round(location.y) + r) *
scale))` (the view origin is rounded to an integer first, and the Rust `as`
casts truncate toward zero), an absent cell paints a blank unless
`break_on_line_end` is set and the scaled buffer x-coordinate is positive, in
which case the rest of the screen row is left untouched. -/
theorem C3_render_cells (sr : StringRenderer) (e : Editor) (opts : RenderOpts)
    (h : sr.line_hint = none) :
    renderLines sr e opts = renderSpecC3 e opts sr.break_on_line_end := by
  obtain ⟨hint, brk⟩ := sr
  simp only at h
  subst h
  unfold renderLines renderSpecC3
  dsimp only
  refine congrArg (fun f => List.map f (List.range opts.view.height.toNat))
    (funext fun r => ?_)
  have h0 := renderRowFrom_spec e opts brk r opts.view.width.toNat 0
  simpa using h0

/-- C3 — counterexample to the claim as stated.  On the one-row document "ab"
with view origin `(1/2, 0)`, a 1x1 view and scale 1, the renderer reads the
cell at the rounded origin (column 1, the character b), while the claim as
stated (floor of the fractional origin, column 0) predicts the character a. -/
theorem C3_counterexample :
    StringRenderer.render ⟨none, false⟩ c3Editor c3Opts ≠
      renderClaimC3 c3Editor c3Opts false ∧
    StringRenderer.render ⟨none, false⟩ c3Editor c3Opts = "b\n" ∧
    renderClaimC3 c3Editor c3Opts false = "a\n" := by
  decide

/-- Witness for C3 at a concrete renderer input. -/
theorem C3_render_cells_witness :
    renderLines ⟨none, false⟩ c3Editor c3Opts = renderSpecC3 c3Editor c3Opts false :=
  C3_render_cells ⟨none, false⟩ c3Editor c3Opts rfl

theorem renderRowFrom_nobreak_length (e : Editor) (opts : RenderOpts) (y : ℤ) :
    ∀ (n : ℕ) (x : ℤ), (renderRowFrom ⟨none, false⟩ e opts y x n).length = n := by
  intro n
  induction n with
  | zero => intro x; rfl
  | succ n ih =>
    intro x
    simp only [renderRowFrom]
    split
    · simp [ih]
    · simp [ih]

theorem renderRowFrom_nobreak_getD (e : Editor) (opts : RenderOpts) (y : ℤ) :
    ∀ (n c : ℕ) (x : ℤ), c < n →
      (renderRowFrom ⟨none, false⟩ e opts y x n).getD c ' ' =
        (match e.get_cell (f64toi32 (((x + (c : ℤ) : ℤ) : ℚ) * opts.scale))
            (f64toi32 ((y : ℚ) * opts.scale)) with
          | some cell => cell.char
          | none => ' ') := by
  intro n
  induction n with
  | zero => intro c x hc; exact absurd hc (Nat.not_lt_zero c)
  | succ n ih =>
    intro c x hc
    cases c with
    | zero =>
      rw [show x + ((0 : ℕ) : ℤ) = x from by simp]
      rw [renderRowFrom_succ]
      cases hcell : e.get_cell (f64toi32 ((x : ℚ) * opts.scale))
          (f64toi32 ((y : ℚ) * opts.scale)) with
      | some cell => simp [hcell]
      | none => simp [hcell]
    | succ c =>
      have hlt : c < n := Nat.lt_of_succ_lt_succ hc
      have ih2 := ih c (x + 1) hlt
      have hx : x + 1 + (c : ℤ) = x + ((c + 1 : ℕ) : ℤ) := by
        push_cast
        ring
      rw [hx] at ih2
      rw [renderRowFrom_succ]
      cases hcell : e.get_cell (f64toi32 ((x : ℚ) * opts.scale))
          (f64toi32 ((y : ℚ) * opts.scale)) with
      | some cell => simpa [hcell] using ih2
      | none => simpa [hcell] using ih2

/-- C10 — totality and shape of the default full-frame render.  With no line
hint, `break_on_line_end` off and a non-negative view width and height, the
renderer is a total function whose output consists of exactly `height`
newline-terminated rows, each exactly `width` characters, and the character at
screen position `(r, c)` is the buffer cell at the truncated scaled
coordinates, with absent cells rendered as spaces. -/
theorem C10_render_total (e : Editor) (opts : RenderOpts)
    (hw : 0 ≤ opts.view.width) (hh : 0 ≤ opts.view.height) :
    ((renderLines StringRenderer.new e opts).length : ℤ) = opts.view.height ∧
    (∀ line ∈ renderLines StringRenderer.new e opts,
      (line.length : ℤ) = opts.view.width) ∧
    (StringRenderer.render StringRenderer.new e opts).data =
      terminateRows (renderLines StringRenderer.new e opts) ∧
    (∀ r c : ℕ, r < (renderLines StringRenderer.new e opts).length →
        c < opts.view.width.toNat →
        ((renderLines StringRenderer.new e opts).getD r []).getD c ' ' =
          (match e.get_cell
              (f64toi32 (((f64round opts.view.location.x + (c : ℤ) : ℤ) : ℚ) * opts.scale))
              (f64toi32 (((f64round opts.view.location.y + (r : ℤ) : ℤ) : ℚ) * opts.scale)) with
            | some cell => cell.char
            | none => ' ')) := by
  refine ⟨?_, ?_, rfl, ?_⟩
  · show (((List.range opts.view.height.toNat).map _).length : ℤ) = _
    rw [List.length_map, List.length_range, Int.toNat_of_nonneg hh]
  · intro line hline
    show (line.length : ℤ) = _
    obtain ⟨r, _, hr⟩ := List.mem_map.mp hline
    rw [← hr]
    show ((renderRowFrom ⟨none, false⟩ e opts
        (f64round opts.view.location.y + (r : ℤ))
        (f64round opts.view.location.x) opts.view.width.toNat).length : ℤ) = _
    rw [renderRowFrom_nobreak_length]
    exact Int.toNat_of_nonneg hw
  · intro r c hr hc
    have hr2 : r < opts.view.height.toNat := by
      rw [show (renderLines StringRenderer.new e opts).length =
          opts.view.height.toNat by
        show ((List.range opts.view.height.toNat).map _).length = _
        rw [List.length_map, List.length_range]] at hr
      exact hr
    have hrow : (renderLines StringRenderer.new e opts).getD r [] =
        renderRowFrom ⟨none, false⟩ e opts
          (f64round opts.view.location.y + (r : ℤ))
          (f64round opts.view.location.x) opts.view.width.toNat := by
      show ((List.range opts.view.height.toNat).map _).getD r [] = _
      rw [List.getD_eq_getElem?_getD, List.getElem?_map, List.getElem?_range hr2]
      rfl
    rw [hrow, renderRowFrom_nobreak_getD e opts _ opts.view.width.toNat c _ hc]

/-- Witness for C10: line count of a concrete full-frame render. -/
theorem C10_render_total_witness :
    ((renderLines StringRenderer.new edHello c10Opts).length : ℤ) =
      c10Opts.view.height :=
  (C10_render_total edHello c10Opts (by decide) (by decide)).1

/-- C4 — corrected line-hinted redraw claim.  The hinted path draws the single
buffer row `L` (a height-1 render) only when the point `(0, L)` passes the
full rectangle test — so the horizontal view offset matters, contrary to the
claim as stated — and when `(0, L)` is not contained it performs no output
unless `(0, L)` precedes the truncated view origin in reading order, in which
case a full-frame render is emitted rather than nothing. -/
theorem C4_render_line (a : App) (L : ℤ) :
    (a.render_opts.view.contains ⟨0, (L : ℚ)⟩ = true →
      a.renderLineOut L =
        [RenderOut.lineOut
          (u16ofF64 ((L : ℚ) - ((f64round a.render_opts.view.location.y : ℤ) : ℚ)))
          (StringRenderer.render ⟨some L, a.render_break_line_hint⟩ a.editor
            a.render_opts)] ∧
      (renderLines ⟨some L, a.render_break_line_hint⟩ a.editor a.render_opts).length
        = 1) ∧
    (a.render_opts.view.contains ⟨0, (L : ℚ)⟩ = false →
      (Vector2.lt ⟨0, L⟩ a.render_opts.view.location.toInt = true →
        ∃ t, a.renderLineOut L = [RenderOut.fullOut t]) ∧
      (Vector2.lt ⟨0, L⟩ a.render_opts.view.location.toInt = false →
        a.renderLineOut L = [])) := by
  constructor
  · intro hc
    constructor
    · simp [App.renderLineOut, hc]
    · rfl
  · intro hc
    constructor
    · intro hlt
      refine ⟨StringRenderer.render StringRenderer.new a.editor
        (a.updateViewSize).render_opts, ?_⟩
      simp [App.renderLineOut, hc, hlt]
    · intro hlt
      simp [App.renderLineOut, hc, hlt]

/-- C4 — counterexample to the claim as stated: with view origin (5,0) and a
10x5 view, buffer row 2 lies inside the vertical range
`location.y ≤ 2 < location.y + height`, yet the line-hinted path renders
nothing, because the containment test also involves the horizontal offset. -/
theorem C4_counterexample :
    (c4OffApp.render_opts.view.location.y ≤ (2 : ℚ) ∧
      (2 : ℚ) < c4OffApp.render_opts.view.location.y +
        (c4OffApp.render_opts.view.height : ℚ)) ∧
    c4OffApp.renderLineOut 2 = [] := by
  decide

/-- Witness for C4 at a concrete state whose view does contain (0, 2). -/
theorem C4_render_line_witness :
    c4OnApp.renderLineOut 2 =
      [RenderOut.lineOut
        (u16ofF64 ((2 : ℚ) - ((f64round c4OnApp.render_opts.view.location.y : ℤ) : ℚ)))
        (StringRenderer.render ⟨some 2, c4OnApp.render_break_line_hint⟩ c4OnApp.editor
          c4OnApp.render_opts)] :=
  ((C4_render_line c4OnApp 2).1 (by decide)).1

end RustEd

